import Mathlib

/-!
Verification of the glassroom particle/audio engine against its specification.

The definitions below are a shallow embedding of the TypeScript sources:

* `src/components/Visualizer.tsx` — particle model, spawning, physics tick
  (wall resolution, budding), the spatial-hash grid, and collision
  resolution (`checkCollision`): absorption ("cannibalism") and the elastic
  bounce.
* `src/services/audioEngine.ts` (`triggerSound`) and the caller
  `triggerBubbleSound` — the octave-multiplier mapping from particle size.
* `src/src/music/quantize.ts` and `src/src/music/scales.ts` — the musical
  quantizer.

Numbers are embedded as exact rationals `ℚ` (the sources use IEEE doubles;
all claims here are about exact arithmetic identities, order comparisons and
set equalities, so the exact-field model is the faithful reading of the
spec's "within numerical tolerance" phrasing).  The absorption radius uses
`ℝ` because it takes a cube root.  Where the source draws `Math.random()`,
the drawn value is passed as an explicit argument.  NaN/Infinity behaviour
is modelled by the dedicated type `JsNum`.
-/

namespace Glassroom

/-- `const DEPTH = 1000` in Visualizer.tsx. -/
def DEPTH : ℚ := 1000

/-- `const GRID_SIZE = 120` in Visualizer.tsx. -/
def GRID_SIZE : ℚ := 120

/-- A particle ("bubble").  Fields are the simulation-relevant subset of the
`Bubble` record in `types.ts` / `Visualizer.tsx`; `id`, `color`, `hue`,
`vertices`, `vertexPhases` and `deformation` are rendering-only and are not
consulted by any of the claims below. -/
structure Bubble where
  x : ℚ
  y : ℚ
  z : ℚ
  vx : ℚ
  vy : ℚ
  vz : ℚ
  radius : ℚ
deriving DecidableEq

instance : Inhabited Bubble := ⟨⟨0, 0, 0, 0, 0, 0, 0⟩⟩

/-! ## Spawning (`spawnBubble`, Visualizer.tsx lines 40-68)

`spawnBubble(x, y, z = 0, r?)` pushes one new bubble onto the array,
unconditionally.  The JS defaults `r || (Math.random()*35+15)` and
`z || Math.random()*(DEPTH*0.5)` treat `0` (and `undefined`) as falsy; the
random draws are explicit arguments here. -/

def spawnBubble (bs : List Bubble) (x y z : ℚ) (rOpt : Option ℚ)
    (randRadius randZ rvx rvy rvz : ℚ) : List Bubble :=
  let radius := match rOpt with
    | some r => if r = 0 then randRadius else r
    | none => randRadius
  let z0 := if z = 0 then randZ else z
  bs ++ [{ x := x, y := y, z := z0, vx := rvx, vy := rvy, vz := rvz,
           radius := radius }]

/-! ## Budding (Visualizer.tsx lines 376-380)

```
if (Math.random() < buddingChance * 0.05 && b.radius > 15) {
   b.radius *= 0.8;
   spawnBubble(b.x, b.y, b.z, b.radius);
}
```
Returns the (possibly shrunk) parent and the list of spawned children. -/

def buddingStep (b : Bubble) (buddingChance randBud randRadius randZ
    rvx rvy rvz : ℚ) : Bubble × List Bubble :=
  if randBud < buddingChance * 0.05 ∧ b.radius > 15 then
    let parent := { b with radius := b.radius * 0.8 }
    (parent, spawnBubble [] b.x b.y b.z (some parent.radius)
      randRadius randZ rvx rvy rvz)
  else (b, [])

/-! ## Wall resolution (Visualizer.tsx lines 356-369)

The per-axis clamp/reflect sequence applied right after position
integration.  The `wallHit` sound trigger and the deformation squash are
side effects not consulted by the containment claim. -/

def wallStepX (w : ℚ) (b : Bubble) : Bubble :=
  if b.x - b.radius < 0 then { b with x := b.radius, vx := b.vx * (-0.9) }
  else if b.x + b.radius > w then { b with x := w - b.radius, vx := b.vx * (-0.9) }
  else b

def wallStepY (h gravity : ℚ) (b : Bubble) : Bubble :=
  if b.y - b.radius < 0 then { b with y := b.radius, vy := b.vy * (-0.9) }
  else if b.y + b.radius > h then
    let vy1 := b.vy * (if gravity > 0.5 then (-0.6) else (-0.9))
    let vy2 := if |vy1| < 0.5 ∧ gravity > 0.5 then 0 else vy1
    { b with y := h - b.radius, vy := vy2 }
  else b

def wallStepZ (b : Bubble) : Bubble :=
  if b.z < 0 then { b with z := 0, vz := b.vz * (-0.9) }
  else if b.z > DEPTH then { b with z := DEPTH, vz := b.vz * (-0.9) }
  else b

/-- The full per-particle wall pass, in source order: x, then y, then z. -/
def wallStep (w h gravity : ℚ) (b : Bubble) : Bubble :=
  wallStepZ (wallStepY h gravity (wallStepX w b))

/-! ## Spatial-hash grid (Visualizer.tsx lines 382-417)

Cells are keyed by `(Math.floor(x / GRID_SIZE), Math.floor(y / GRID_SIZE))`
(the grid is two-dimensional; `z` is ignored).  All pairs inside a cell are
tested, and each cell is additionally tested against the fixed forward
offsets `[1,0], [1,1], [0,1], [-1,1]`.  Hence an unordered pair of bubbles
reaches `checkCollision` iff they share a cell or one cell is the other
plus a forward offset. -/

def cellOf (b : Bubble) : ℤ × ℤ := (⌊b.x / GRID_SIZE⌋, ⌊b.y / GRID_SIZE⌋)

def neighborOffsets : List (ℤ × ℤ) := [(1, 0), (1, 1), (0, 1), (-1, 1)]

def gridPaired (a b : Bubble) : Prop :=
  cellOf a = cellOf b ∨
    (cellOf b - cellOf a) ∈ neighborOffsets ∨
    (cellOf a - cellOf b) ∈ neighborOffsets

instance (a b : Bubble) : Decidable (gridPaired a b) := by
  unfold gridPaired; infer_instance

/-! ## Collision candidate test (`checkCollision`, Visualizer.tsx 432-452)

```
const distSq = dx*dx + dy*dy + dz*dz;
const minDist = b1.radius + b2.radius;
if (distSq > (minDist * 3) * (minDist * 3)) return;
const dist = Math.sqrt(distSq);
if (dist < minDist * 3) { ... record candidate ... }
```
For the nonnegative radii the simulation maintains, the two guards combine
to exactly `distSq < (minDist * 3)^2` (squaring both sides of
`√distSq < 3·minDist` is an equivalence since both sides are nonnegative),
which avoids the irrational square root. -/

def distSq (a b : Bubble) : ℚ :=
  (b.x - a.x) * (b.x - a.x) + (b.y - a.y) * (b.y - a.y) +
    (b.z - a.z) * (b.z - a.z)

def bandNear (a b : Bubble) : Prop :=
  distSq a b < ((a.radius + b.radius) * 3) * ((a.radius + b.radius) * 3)

instance (a b : Bubble) : Decidable (bandNear a b) := by
  unfold bandNear; infer_instance

/-! ## Absorption ("cannibalism", Visualizer.tsx lines 454-463)

```
if (b1.radius > b2.radius) {
   b1.radius = Math.pow(Math.pow(b1.radius, 3) + Math.pow(b2.radius, 3), 1/3);
   b2.radius = 0;
} else { ...symmetric... }
```
The cube root forces the real field here. -/

noncomputable def absorbRadius (r1 r2 : ℝ) : ℝ := (r1 ^ 3 + r2 ^ 3) ^ ((1 : ℝ) / 3)

noncomputable def absorb (r1 r2 : ℝ) : ℝ × ℝ :=
  if r1 > r2 then (absorbRadius r1 r2, 0) else (0, absorbRadius r1 r2)

/-! ## Elastic bounce (Visualizer.tsx lines 464-485)

The non-absorption branch.  `dist` (`Math.sqrt(distSq)` in the source) is
passed explicitly since it is irrational in general; theorems characterise
it by `dist^2 = distSq` where needed. -/

def relNormalVel (b1 b2 : Bubble) (dist : ℚ) : ℚ :=
  (b2.vx - b1.vx) * ((b2.x - b1.x) / dist) +
    (b2.vy - b1.vy) * ((b2.y - b1.y) / dist) +
    (b2.vz - b1.vz) * ((b2.z - b1.z) / dist)

def bounce (b1 b2 : Bubble) (dist : ℚ) : Bubble × Bubble :=
  let nx := (b2.x - b1.x) / dist
  let ny := (b2.y - b1.y) / dist
  let nz := (b2.z - b1.z) / dist
  let velAlongNormal := relNormalVel b1 b2 dist
  if velAlongNormal > 0 then (b1, b2)
  else
    let e : ℚ := 0.95
    let jImp := (-(1 + e) * velAlongNormal) / (1 / b1.radius + 1 / b2.radius)
    let im1 := 1 / b1.radius
    let im2 := 1 / b2.radius
    let overlap := (b1.radius + b2.radius) - dist
    ({ b1 with
        vx := b1.vx - (jImp * nx) * im1
        vy := b1.vy - (jImp * ny) * im1
        vz := b1.vz - (jImp * nz) * im1
        x := b1.x - nx * overlap * 0.5
        y := b1.y - ny * overlap * 0.5
        z := b1.z - nz * overlap * 0.5 },
     { b2 with
        vx := b2.vx + (jImp * nx) * im2
        vy := b2.vy + (jImp * ny) * im2
        vz := b2.vz + (jImp * nz) * im2
        x := b2.x + nx * overlap * 0.5
        y := b2.y + ny * overlap * 0.5
        z := b2.z + nz * overlap * 0.5 })

/-! ## Audio octave multiplier

Caller (`triggerBubbleSound`, Visualizer.tsx line 124) passes
`1 - (b.radius / 180)` as the engine's `sizeFactor`; `triggerSound`
(audioEngine.ts line 203) computes
`sizeFactor > 0.8 ? 0.5 : sizeFactor < 0.3 ? 2 : 1`. -/

def sizeFactorOf (radius : ℚ) : ℚ := 1 - radius / 180

def octaveFactor (sizeFactor : ℚ) : ℚ :=
  if sizeFactor > 0.8 then 0.5 else if sizeFactor < 0.3 then 2 else 1

/-! ## NaN/Infinity model for the integration step

`JsNum` is an IEEE-style value: an exact finite number, `nan`, or a signed
infinity.  `jsAdd`/`jsMul` follow IEEE semantics on these cases (NaN
absorbs; `∞ + (-∞)`, `0 · ∞` are NaN).  The integration step
(Visualizer.tsx lines 332-334) is `b.x += b.vx * tempo` per axis, with no
guard of any kind; the velocity component is not touched by it. -/

inductive JsNum where
  | fin (q : ℚ)
  | nan
  | inf
  | negInf
deriving DecidableEq

def jsAdd : JsNum → JsNum → JsNum
  | .nan, _ => .nan
  | _, .nan => .nan
  | .fin a, .fin b => .fin (a + b)
  | .fin _, .inf => .inf
  | .fin _, .negInf => .negInf
  | .inf, .fin _ => .inf
  | .inf, .inf => .inf
  | .inf, .negInf => .nan
  | .negInf, .fin _ => .negInf
  | .negInf, .inf => .nan
  | .negInf, .negInf => .negInf

def jsMul : JsNum → JsNum → JsNum
  | .nan, _ => .nan
  | _, .nan => .nan
  | .fin a, .fin b => .fin (a * b)
  | .fin a, .inf => if a = 0 then .nan else if a > 0 then .inf else .negInf
  | .fin a, .negInf => if a = 0 then .nan else if a > 0 then .negInf else .inf
  | .inf, .fin b => if b = 0 then .nan else if b > 0 then .inf else .negInf
  | .inf, .inf => .inf
  | .inf, .negInf => .negInf
  | .negInf, .fin b => if b = 0 then .nan else if b > 0 then .negInf else .inf
  | .negInf, .inf => .negInf
  | .negInf, .negInf => .inf

/-- One axis of `b.x += b.vx * tempo`: returns (new position, velocity).
The velocity passes through unchanged — the integration step contains no
NaN/Infinity check. -/
def integrateAxis (pos vel tempo : JsNum) : JsNum × JsNum :=
  (jsAdd pos (jsMul vel tempo), vel)

/-! ## Musical quantizer (`src/src/music/quantize.ts`)

`mod(n, m) = ((n % m) + m) % m` where JS `%` truncates toward zero.  It is
embedded twice: on `ℤ` (via `Int.tmod`) for pitch-class arithmetic on the
integer root, and on `ℚ` for the continuous input pitch. -/

def jsModZ (n m : ℤ) : ℤ := ((n.tmod m) + m).tmod m

/-- JS truncation toward zero, as used by `%` on non-integers. -/
def jsTrunc (q : ℚ) : ℤ := if 0 ≤ q then ⌊q⌋ else ⌈q⌉

/-- JS `x % m` on doubles: `x - m * trunc(x / m)`. -/
def jsRem (x m : ℚ) : ℚ := x - m * (jsTrunc (x / m) : ℚ)

/-- `mod` from quantize.ts on continuous values. -/
def jsModQ (n m : ℚ) : ℚ := jsRem (jsRem n m + m) m

/-- JS `Math.round`: round half toward positive infinity. -/
def jsRound (q : ℚ) : ℤ := ⌊q + 0.5⌋

/-- Rounding mode; `cfg.mode ?? 'nearest'` is modelled by making the field
total with `nearest` as the caller-side default. -/
inductive Mode where
  | nearest
  | down
  | up
deriving DecidableEq

/-- The fields of `ScaleDef` the quantizer consults: the interval list, the
`'no3rd'` tag, and `avoid.leadingTone`; `id`/`label` are inert. -/
structure ScaleDef where
  intervals : List ℤ
  no3rdTag : Bool
  avoidLT : Bool
deriving DecidableEq

/-- `minor-pentatonic` from scales.ts (`[0,3,5,7,10]`, no tags consulted
by the quantizer, no avoid flags). -/
def minorPentatonic : ScaleDef := ⟨[0, 3, 5, 7, 10], false, false⟩

structure QuantizeConfig where
  rootMidi : ℤ
  scale : ScaleDef
  mode : Mode
  noImmediateRepeat : Bool
  lastMidi : Option ℚ
  avoidLeadingTone : Bool
  noThirds : Bool

/-- `scale.intervals.slice().sort((a, b) => a - b)` in
`buildAllowedPitchClasses`. -/
def sortedIntervals (s : ScaleDef) : List ℤ :=
  List.insertionSort (fun a b : ℤ => a ≤ b) s.intervals

/-- The no-thirds filter (`filtered` after the first reassignment in
quantize.ts lines 21-23). -/
def filteredIntervals (cfg : QuantizeConfig) : List ℤ :=
  if cfg.noThirds || cfg.scale.no3rdTag then
    (sortedIntervals cfg.scale).filter (fun i => decide (i ≠ 3 ∧ i ≠ 4))
  else sortedIntervals cfg.scale

/-- `if (filtered.length === 0) filtered = scaleIntervals` (line 25). -/
def fallbackIntervals (cfg : QuantizeConfig) : List ℤ :=
  if filteredIntervals cfg = [] then sortedIntervals cfg.scale
  else filteredIntervals cfg

/-- `if (filtered.length === 0) filtered = [0]` (line 26). -/
def finalIntervals (cfg : QuantizeConfig) : List ℤ :=
  if fallbackIntervals cfg = [] then [0] else fallbackIntervals cfg

/-- `buildAllowedPitchClasses` (quantize.ts lines 16-29): sort the scale's
intervals, drop intervals 3 and 4 when a no-thirds exclusion is active,
fall back to the unfiltered intervals if that emptied the list (and to
`[0]` if the scale itself was empty), then transpose by the root pitch
class. -/
def buildAllowedPitchClasses (cfg : QuantizeConfig) : List ℤ :=
  (finalIntervals cfg).map (fun i => jsModZ (jsModZ cfg.rootMidi 12 + i) 12)

/-- JS `Set` insertion: append iff absent (insertion order preserved). -/
def addUnique (l : List ℚ) (x : ℚ) : List ℚ := if x ∈ l then l else l ++ [x]

/-- The `base` value for one allowed pitch class in `buildCandidates`:
`inputMidi - mod(inputMidi - pc, 12)`. -/
def candBase (inputMidi : ℚ) (pc : ℤ) : ℚ :=
  inputMidi - jsModQ (inputMidi - (pc : ℚ)) 12

/-- One loop iteration of `buildCandidates`: add `base - 12`, `base`,
`base + 12` to the set, in that order. -/
def candStep (inputMidi : ℚ) (acc : List ℚ) (pc : ℤ) : List ℚ :=
  addUnique (addUnique (addUnique acc (candBase inputMidi pc - 12))
    (candBase inputMidi pc)) (candBase inputMidi pc + 12)

/-- `buildCandidates` (quantize.ts lines 31-40): for each allowed pitch
class, the aligned pitch in the input's octave plus its neighbours one
octave below and above.  The `Number.isFinite` filter is vacuous in the
exact-rational model. -/
def buildCandidates (inputMidi : ℚ) (allowed : List ℤ) : List ℚ :=
  allowed.foldl (candStep inputMidi) []

/-- A scored candidate (`{midi, dist, score}` in `pickCandidate`). -/
structure Cand where
  midi : ℚ
  dist : ℚ
  score : ℚ
deriving DecidableEq

/-- The comparator `(a.score - b.score) || (a.dist - b.dist) || (a.midi -
b.midi)` as a total order: lexicographic on (score, dist, midi). -/
def candLE (a b : Cand) : Prop :=
  a.score < b.score ∨
    (a.score = b.score ∧
      (a.dist < b.dist ∨ (a.dist = b.dist ∧ a.midi ≤ b.midi)))

instance : DecidableRel candLE := fun a b => by
  unfold candLE; infer_instance

instance : IsTotal Cand candLE := by
  constructor
  intro a b
  unfold candLE
  rcases lt_trichotomy a.score b.score with h | h | h
  · exact Or.inl (Or.inl h)
  · rcases lt_trichotomy a.dist b.dist with h2 | h2 | h2
    · exact Or.inl (Or.inr ⟨h, Or.inl h2⟩)
    · rcases le_total a.midi b.midi with h3 | h3
      · exact Or.inl (Or.inr ⟨h, Or.inr ⟨h2, h3⟩⟩)
      · exact Or.inr (Or.inr ⟨h.symm, Or.inr ⟨h2.symm, h3⟩⟩)
    · exact Or.inr (Or.inr ⟨h.symm, Or.inl h2⟩)
  · exact Or.inr (Or.inl h)

instance : IsTrans Cand candLE := by
  constructor
  intro a b c hab hbc
  unfold candLE at *
  rcases hab with h | ⟨hs, hd⟩
  · rcases hbc with h2 | ⟨hs2, _⟩
    · exact Or.inl (h.trans h2)
    · exact Or.inl (hs2 ▸ h)
  · rcases hbc with h2 | ⟨hs2, hd2⟩
    · exact Or.inl (hs ▸ h2)
    · refine Or.inr ⟨hs.trans hs2, ?_⟩
      rcases hd with h3 | ⟨hdd, hm⟩
      · rcases hd2 with h4 | ⟨hdd2, _⟩
        · exact Or.inl (h3.trans h4)
        · exact Or.inl (hdd2 ▸ h3)
      · rcases hd2 with h4 | ⟨hdd2, hm2⟩
        · exact Or.inl (hdd ▸ h4)
        · exact Or.inr ⟨hdd.trans hdd2, hm.trans hm2⟩

/-- The scoring map inside `pickCandidate` (quantize.ts lines 49-55):
distance to the input plus a 0.25 leading-tone penalty. -/
def scoreCand (inputMidi : ℚ) (avoidLT : Bool) (leadingTonePc : ℤ)
    (m : ℚ) : Cand :=
  { midi := m, dist := |m - inputMidi|,
    score := |m - inputMidi| +
      (if avoidLT ∧ jsModQ m 12 = (leadingTonePc : ℚ) then 0.25 else 0) }

/-- The scored-and-sorted candidate list (quantize.ts lines 49-56). -/
def sortedCands (inputMidi : ℚ) (cands : List ℚ) (avoidLT : Bool)
    (leadingTonePc : ℤ) : List Cand :=
  List.insertionSort candLE (cands.map (scoreCand inputMidi avoidLT leadingTonePc))

/-- `pickCandidate` (quantize.ts lines 42-69).  Distinct candidates never
compare equal under the comparator (their `midi`s differ), so the sorted
order is unique and any sorting algorithm matches the JS `Array.sort`. -/
def pickCandidate (inputMidi : ℚ) (cands : List ℚ) (mode : Mode)
    (avoidLT : Bool) (leadingTonePc : ℤ) : List Cand :=
  match mode with
  | .down =>
    let below := (sortedCands inputMidi cands avoidLT leadingTonePc).filter
      (fun c => decide (c.midi ≤ inputMidi))
    if below = [] then sortedCands inputMidi cands avoidLT leadingTonePc else below
  | .up =>
    let above := (sortedCands inputMidi cands avoidLT leadingTonePc).filter
      (fun c => decide (c.midi ≥ inputMidi))
    if above = [] then sortedCands inputMidi cands avoidLT leadingTonePc else above
  | .nearest => sortedCands inputMidi cands avoidLT leadingTonePc

/-- `Number.isFinite(inputMidi) ? inputMidi : cfg.rootMidi` (line 72);
`inputFinite` models `Number.isFinite` (false for NaN/±Infinity). -/
def safeInputOf (inputMidi : ℚ) (inputFinite : Bool) (cfg : QuantizeConfig) : ℚ :=
  if inputFinite then inputMidi else (cfg.rootMidi : ℚ)

/-- The ordered candidate list assembled by `quantizeMidiToScale` (lines
73-79). -/
def quantizeOrdered (inputMidi : ℚ) (inputFinite : Bool)
    (cfg : QuantizeConfig) : List Cand :=
  pickCandidate (safeInputOf inputMidi inputFinite cfg)
    (buildCandidates (safeInputOf inputMidi inputFinite cfg)
      (buildAllowedPitchClasses cfg))
    cfg.mode (cfg.avoidLeadingTone || cfg.scale.avoidLT)
    (jsModZ (jsModZ cfg.rootMidi 12 + 11) 12)

/-- `ordered[0]?.midi ?? safeInput` (line 81). -/
def chosenOf (inputMidi : ℚ) (inputFinite : Bool) (cfg : QuantizeConfig) : ℚ :=
  match quantizeOrdered inputMidi inputFinite cfg with
  | [] => safeInputOf inputMidi inputFinite cfg
  | c :: _ => c.midi

/-- The repeat-avoidance override (quantize.ts lines 82-85). -/
def chosenRepeatOf (inputMidi : ℚ) (inputFinite : Bool)
    (cfg : QuantizeConfig) : ℚ :=
  if cfg.noImmediateRepeat then
    match cfg.lastMidi with
    | some last =>
      match (quantizeOrdered inputMidi inputFinite cfg).find?
          (fun c => decide (c.midi ≠ last)) with
      | some alt => alt.midi
      | none => chosenOf inputMidi inputFinite cfg
    | none => chosenOf inputMidi inputFinite cfg
  else chosenOf inputMidi inputFinite cfg

/-- `quantizeMidiToScale` (quantize.ts lines 71-88). -/
def quantizeMidiToScale (inputMidi : ℚ) (inputFinite : Bool)
    (cfg : QuantizeConfig) : ℤ :=
  jsRound (chosenRepeatOf inputMidi inputFinite cfg)

/-! # Theorems -/

/-! ## C7 — octave multiplier vs. particle size -/

/-- Claim C7 counterexample: the claim says the octave multiplier is halved
for very large particles and doubled for very small ones.  The code does
the opposite: a radius-150 particle (very large; spawn radii are at most
50) gets multiplier 2, and a radius-16 particle (very small) gets 0.5. -/
theorem c7_counterexample :
    octaveFactor (sizeFactorOf 150) = 2 ∧ octaveFactor (sizeFactorOf 150) ≠ 0.5 ∧
      octaveFactor (sizeFactorOf 16) = 0.5 ∧ octaveFactor (sizeFactorOf 16) ≠ 2 := by
  norm_num [octaveFactor, sizeFactorOf]

/-- Claim C7 (amended): the octave multiplier is piecewise constant in the
triggering particle's radius, but with the opposite orientation to the
claim: halved (0.5) for very small particles (radius < 36, i.e. engine
sizeFactor > 0.8), doubled (2) for very large particles (radius > 126,
i.e. sizeFactor < 0.3), and unchanged (1) otherwise. -/
theorem c7_octave_piecewise (r : ℚ) :
    octaveFactor (sizeFactorOf r) =
      if r < 36 then 0.5 else if 126 < r then 2 else 1 := by
  unfold octaveFactor sizeFactorOf
  split_ifs <;> first | rfl | (exfalso; linarith)

/-! ## C8 — NaN/Infinity recovery at integration -/

/-- Claim C8 counterexample: a particle whose x-velocity is NaN at position
5 with tempo 1.  The claim says the next integration step zeroes the
offending component; instead the step leaves the velocity NaN (not 0) and
propagates NaN into the position. -/
theorem c8_counterexample :
    integrateAxis (.fin 5) .nan (.fin 1) = (JsNum.nan, JsNum.nan) ∧
      JsNum.nan ≠ JsNum.fin 0 := by
  exact ⟨rfl, by decide⟩

/-- Claim C8 (amended): the integration step contains no NaN/Infinity
guard.  A NaN velocity component is not zeroed — it persists unchanged
through the step and propagates into the position component, for every
position and tempo.  (No error is surfaced, trivially: the step is a total
function.) -/
theorem c8_nan_persists (pos tempo : JsNum) :
    integrateAxis pos JsNum.nan tempo = (JsNum.nan, JsNum.nan) := by
  cases pos <;> cases tempo <;> rfl

/-! ## C4 — population cap on spawn -/

/-- Claim C4 counterexample: there is no population cap at all.  For every
candidate cap, a population of exactly that size still grows when spawned
into, so "spawning at the cap is a no-op" fails for every cap. -/
theorem c4_counterexample :
    ¬ ∃ cap : ℕ, ∀ bs : List Bubble, bs.length = cap →
      (spawnBubble bs 0 0 0 none 20 0 0 0 0).length ≤ cap := by
  rintro ⟨cap, h⟩
  have h2 := h (List.replicate cap default) (by simp)
  simp [spawnBubble] at h2

/-- Claim C4 (amended): `spawnBubble` is unconditional — every call appends
exactly one particle, for every current population and every argument, so
the population is unbounded.  (No error is raised: the function is total.) -/
theorem c4_spawn_appends (bs : List Bubble) (x y z : ℚ) (rOpt : Option ℚ)
    (randRadius randZ rvx rvy rvz : ℚ) :
    (spawnBubble bs x y z rOpt randRadius randZ rvx rvy rvz).length =
      bs.length + 1 := by
  simp [spawnBubble]

/-! ## C3 — wall containment after integration -/

theorem wallStepX_fields (w : ℚ) (b : Bubble) :
    (wallStepX w b).radius = b.radius ∧ (wallStepX w b).y = b.y ∧
      (wallStepX w b).z = b.z := by
  unfold wallStepX; split_ifs <;> exact ⟨rfl, rfl, rfl⟩

theorem wallStepY_fields (h gravity : ℚ) (b : Bubble) :
    (wallStepY h gravity b).radius = b.radius ∧ (wallStepY h gravity b).x = b.x ∧
      (wallStepY h gravity b).z = b.z := by
  unfold wallStepY; split_ifs <;> exact ⟨rfl, rfl, rfl⟩

theorem wallStepZ_fields (b : Bubble) :
    (wallStepZ b).radius = b.radius ∧ (wallStepZ b).x = b.x ∧
      (wallStepZ b).y = b.y := by
  unfold wallStepZ; split_ifs <;> exact ⟨rfl, rfl, rfl⟩

theorem wallStepX_bounds (w : ℚ) (b : Bubble) (hw : b.radius * 2 ≤ w) :
    b.radius ≤ (wallStepX w b).x ∧ (wallStepX w b).x ≤ w - b.radius := by
  unfold wallStepX
  split_ifs with h1 h2
  · exact ⟨by show b.radius ≤ b.radius; linarith,
      by show b.radius ≤ w - b.radius; linarith⟩
  · exact ⟨by show b.radius ≤ w - b.radius; linarith,
      by show w - b.radius ≤ w - b.radius; linarith⟩
  · exact ⟨by linarith, by linarith⟩

theorem wallStepY_bounds (h gravity : ℚ) (b : Bubble) (hh : b.radius * 2 ≤ h) :
    b.radius ≤ (wallStepY h gravity b).y ∧ (wallStepY h gravity b).y ≤ h - b.radius := by
  unfold wallStepY
  split_ifs with h1 h2 h3
  · exact ⟨by show b.radius ≤ b.radius; linarith,
      by show b.radius ≤ h - b.radius; linarith⟩
  · exact ⟨by show b.radius ≤ h - b.radius; linarith,
      by show h - b.radius ≤ h - b.radius; linarith⟩
  · exact ⟨by show b.radius ≤ h - b.radius; linarith,
      by show h - b.radius ≤ h - b.radius; linarith⟩
  · exact ⟨by linarith, by linarith⟩

theorem wallStepZ_bounds (b : Bubble) :
    0 ≤ (wallStepZ b).z ∧ (wallStepZ b).z ≤ DEPTH := by
  unfold wallStepZ
  split_ifs with h1 h2
  · exact ⟨by show (0:ℚ) ≤ 0; linarith, by show (0:ℚ) ≤ DEPTH; norm_num [DEPTH]⟩
  · exact ⟨by show (0:ℚ) ≤ DEPTH; norm_num [DEPTH], by show DEPTH ≤ DEPTH; linarith⟩
  · exact ⟨by linarith, by linarith⟩

/-- Claim C3 counterexample: a particle of radius 10 entering the near wall
at z = -5 is clamped to z = 0, which is below the claimed lower bound
z ≥ radius = 10.  The z-axis clamp uses [0, DEPTH], not
[radius, DEPTH - radius]. -/
theorem c3_counterexample :
    (wallStep 1000 1000 0 ⟨500, 500, -5, 0, 0, 0, 10⟩).z = 0 ∧
      (wallStep 1000 1000 0 ⟨500, 500, -5, 0, 0, 0, 10⟩).radius = 10 ∧
      ¬ ((wallStep 1000 1000 0 ⟨500, 500, -5, 0, 0, 0, 10⟩).radius ≤
          (wallStep 1000 1000 0 ⟨500, 500, -5, 0, 0, 0, 10⟩).z) := by
  norm_num [wallStep, wallStepX, wallStepY, wallStepZ, DEPTH]

/-- Claim C3 (amended): after the wall-resolution step, a particle that
fits in the room (diameter at most each of the x/y bounds) satisfies
x ∈ [radius, width - radius] and y ∈ [radius, height - radius], but the
z coordinate is only clamped to [0, DEPTH] — the radius margin is not
honoured on the z axis. -/
theorem c3_wall_containment (w h gravity : ℚ) (b : Bubble)
    (hw : b.radius * 2 ≤ w) (hh : b.radius * 2 ≤ h) :
    (wallStep w h gravity b).radius = b.radius ∧
      b.radius ≤ (wallStep w h gravity b).x ∧
      (wallStep w h gravity b).x ≤ w - b.radius ∧
      b.radius ≤ (wallStep w h gravity b).y ∧
      (wallStep w h gravity b).y ≤ h - b.radius ∧
      0 ≤ (wallStep w h gravity b).z ∧ (wallStep w h gravity b).z ≤ DEPTH := by
  unfold wallStep
  obtain ⟨hxr, hxy, hxz⟩ := wallStepX_fields w b
  obtain ⟨hyr, hyx, hyz⟩ := wallStepY_fields h gravity (wallStepX w b)
  obtain ⟨hzr, hzx, hzy⟩ := wallStepZ_fields (wallStepY h gravity (wallStepX w b))
  obtain ⟨hx1, hx2⟩ := wallStepX_bounds w b hw
  obtain ⟨hy1, hy2⟩ := wallStepY_bounds h gravity (wallStepX w b) (by rw [hxr]; exact hh)
  obtain ⟨hz1, hz2⟩ := wallStepZ_bounds (wallStepY h gravity (wallStepX w b))
  refine ⟨by rw [hzr, hyr, hxr], ?_, ?_, ?_, ?_, hz1, hz2⟩
  · rw [hzx, hyx]; exact hx1
  · rw [hzx, hyx]; exact hx2
  · rw [hzy]; rw [hxr] at hy1; exact hy1
  · rw [hzy]; rw [hxr] at hy2; exact hy2

/-- Claim C3 witness: the amended containment evaluated for a radius-10
particle pushed outside the left wall and below the floor. -/
theorem c3_wall_containment_witness :
    (10 : ℚ) * 2 ≤ 1000 ∧
      ((wallStep 1000 1000 0 ⟨-50, 2000, 500, 0, 0, 0, 10⟩).radius =
          (⟨-50, 2000, 500, 0, 0, 0, 10⟩ : Bubble).radius ∧
        (⟨-50, 2000, 500, 0, 0, 0, 10⟩ : Bubble).radius ≤
          (wallStep 1000 1000 0 ⟨-50, 2000, 500, 0, 0, 0, 10⟩).x ∧
        (wallStep 1000 1000 0 ⟨-50, 2000, 500, 0, 0, 0, 10⟩).x ≤
          1000 - (⟨-50, 2000, 500, 0, 0, 0, 10⟩ : Bubble).radius ∧
        (⟨-50, 2000, 500, 0, 0, 0, 10⟩ : Bubble).radius ≤
          (wallStep 1000 1000 0 ⟨-50, 2000, 500, 0, 0, 0, 10⟩).y ∧
        (wallStep 1000 1000 0 ⟨-50, 2000, 500, 0, 0, 0, 10⟩).y ≤
          1000 - (⟨-50, 2000, 500, 0, 0, 0, 10⟩ : Bubble).radius ∧
        0 ≤ (wallStep 1000 1000 0 ⟨-50, 2000, 500, 0, 0, 0, 10⟩).z ∧
        (wallStep 1000 1000 0 ⟨-50, 2000, 500, 0, 0, 0, 10⟩).z ≤ DEPTH) :=
  ⟨by norm_num,
   c3_wall_containment 1000 1000 0 ⟨-50, 2000, 500, 0, 0, 0, 10⟩
     (by norm_num) (by norm_num)⟩

/-! ## C6 — budding fission -/

/-- Claim C6 counterexample: budding a radius-20 parent (chance 1, so the
draw always fires) leaves parent and child at radius 16 each, and
16³ + 16³ = 8192 ≠ 8000 = 20³: the fission is not volume-conserving —
it creates 2.4% extra volume. -/
theorem c6_counterexample :
    buddingStep ⟨0, 0, 100, 0, 0, 0, 20⟩ 1 0 33 444 0 0 0 =
      (⟨0, 0, 100, 0, 0, 0, 16⟩, [⟨0, 0, 100, 0, 0, 0, 16⟩]) ∧
      (16 : ℚ) ^ 3 + 16 ^ 3 ≠ 20 ^ 3 := by
  constructor
  · norm_num [buddingStep, spawnBubble]
  · norm_num

/-- Claim C6 (amended): budding fires only when the parent's radius exceeds
the minimum viable size 15 (and the probability draw succeeds).  It then
multiplies the parent's radius by 0.8 and spawns a child with that same
reduced radius at the parent's x, y and (for z ≠ 0) z.  The fission is
only approximately volume-conserving: the resulting volumes sum to
128/125 = 1.024 times the parent's original volume, not exactly to it. -/
theorem c6_budding (b : Bubble) (chance randBud randRadius randZ rvx rvy rvz : ℚ) :
    (randBud < chance * 0.05 → b.radius > 15 → b.z ≠ 0 →
      buddingStep b chance randBud randRadius randZ rvx rvy rvz =
        ({ b with radius := b.radius * 0.8 },
         [{ x := b.x, y := b.y, z := b.z, vx := rvx, vy := rvy, vz := rvz,
            radius := b.radius * 0.8 }]) ∧
      (b.radius * 0.8) ^ 3 + (b.radius * 0.8) ^ 3 = (128 / 125) * b.radius ^ 3) ∧
    (¬ b.radius > 15 →
      buddingStep b chance randBud randRadius randZ rvx rvy rvz = (b, [])) := by
  constructor
  · intro h1 h2 h3
    constructor
    · unfold buddingStep
      rw [if_pos ⟨h1, h2⟩]
      have hr : (b.radius * 0.8 : ℚ) ≠ 0 := by
        intro h0
        nlinarith
      simp [spawnBubble, hr, h3]
    · ring
  · intro h
    unfold buddingStep
    rw [if_neg]
    rintro ⟨_, hr⟩
    exact h hr

/-- Claim C6 witness: the amended budding behaviour evaluated for a
radius-30 parent at (1,2,3) with the draw succeeding. -/
theorem c6_budding_witness :
    (0 : ℚ) < 1 * 0.05 ∧ (30 : ℚ) > 15 ∧ (3 : ℚ) ≠ 0 ∧
      (buddingStep ⟨1, 2, 3, 4, 5, 6, 30⟩ 1 0 7 8 9 10 11 =
        (⟨1, 2, 3, 4, 5, 6, 30 * 0.8⟩, [⟨1, 2, 3, 9, 10, 11, 30 * 0.8⟩]) ∧
       ((30 : ℚ) * 0.8) ^ 3 + (30 * 0.8) ^ 3 = (128 / 125) * 30 ^ 3) :=
  ⟨by norm_num, by norm_num, by norm_num,
   (c6_budding ⟨1, 2, 3, 4, 5, 6, 30⟩ 1 0 7 8 9 10 11).1
     (by norm_num) (by norm_num) (by norm_num)⟩

/-! ## C10 — elastic bounce: radius-weighted momentum -/

/-- Claim C10: in the elastic-bounce branch, with positive radii, the
impulse update exactly conserves radius-weighted momentum
r1·v1 + r2·v2 on every axis, and a separating pair (relative velocity
along the contact normal strictly positive) receives no impulse at all:
the bounce returns both particles unchanged. -/
theorem c10_bounce_momentum (b1 b2 : Bubble) (dist : ℚ)
    (h1 : 0 < b1.radius) (h2 : 0 < b2.radius) :
    (b1.radius * (bounce b1 b2 dist).1.vx + b2.radius * (bounce b1 b2 dist).2.vx =
        b1.radius * b1.vx + b2.radius * b2.vx) ∧
      (b1.radius * (bounce b1 b2 dist).1.vy + b2.radius * (bounce b1 b2 dist).2.vy =
        b1.radius * b1.vy + b2.radius * b2.vy) ∧
      (b1.radius * (bounce b1 b2 dist).1.vz + b2.radius * (bounce b1 b2 dist).2.vz =
        b1.radius * b1.vz + b2.radius * b2.vz) ∧
      (relNormalVel b1 b2 dist > 0 → bounce b1 b2 dist = (b1, b2)) := by
  have hr1 := h1.ne'
  have hr2 := h2.ne'
  unfold bounce
  by_cases hsep : relNormalVel b1 b2 dist > 0
  · rw [if_pos hsep]
    exact ⟨rfl, rfl, rfl, fun _ => rfl⟩
  · rw [if_neg hsep]
    have key : ∀ J n v1 v2 : ℚ,
        b1.radius * (v1 - J * n * (1 / b1.radius)) +
          b2.radius * (v2 + J * n * (1 / b2.radius)) =
          b1.radius * v1 + b2.radius * v2 := by
      intro J n v1 v2
      field_simp
      ring
    exact ⟨key _ _ _ _, key _ _ _ _, key _ _ _ _, fun hgt => absurd hgt hsep⟩

/-- Claim C10 witness: momentum conservation evaluated for two radius-5
particles in head-on contact at distance 5 with closing x-velocity. -/
theorem c10_bounce_momentum_witness :
    (0 : ℚ) < (⟨0, 0, 0, 1, 0, 0, 5⟩ : Bubble).radius ∧
      (0 : ℚ) < (⟨5, 0, 0, 0, 0, 0, 5⟩ : Bubble).radius ∧
      ((⟨0, 0, 0, 1, 0, 0, 5⟩ : Bubble).radius *
          (bounce ⟨0, 0, 0, 1, 0, 0, 5⟩ ⟨5, 0, 0, 0, 0, 0, 5⟩ 5).1.vx +
        (⟨5, 0, 0, 0, 0, 0, 5⟩ : Bubble).radius *
          (bounce ⟨0, 0, 0, 1, 0, 0, 5⟩ ⟨5, 0, 0, 0, 0, 0, 5⟩ 5).2.vx =
        (⟨0, 0, 0, 1, 0, 0, 5⟩ : Bubble).radius * (⟨0, 0, 0, 1, 0, 0, 5⟩ : Bubble).vx +
        (⟨5, 0, 0, 0, 0, 0, 5⟩ : Bubble).radius * (⟨5, 0, 0, 0, 0, 0, 5⟩ : Bubble).vx) :=
  ⟨by norm_num, by norm_num,
   ((c10_bounce_momentum ⟨0, 0, 0, 1, 0, 0, 5⟩ ⟨5, 0, 0, 0, 0, 0, 5⟩ 5
      (by norm_num) (by norm_num)).1)⟩

/-! ## C1 — absorption conserves volume -/

/-- Claim C1: for contacting particles (contact forces r1 + r2 > 0, since
the centre distance is nonnegative and strictly below r1 + r2) with
nonnegative radii, absorption gives the survivor radius
R = (r1³ + r2³)^(1/3), so R³ = r1³ + r2³ exactly in real arithmetic; the
survivor's slot is the strictly larger particle's (ties go to the second,
matching the source's `b1.radius > b2.radius` test), and exactly one of
the two ends with radius 0 while the other ends strictly positive. -/
theorem c1_absorb_volume (r1 r2 : ℝ) (h1 : 0 ≤ r1) (h2 : 0 ≤ r2)
    (hc : 0 < r1 + r2) :
    ((absorb r1 r2).1 ^ 3 + (absorb r1 r2).2 ^ 3 = r1 ^ 3 + r2 ^ 3) ∧
      (((absorb r1 r2).1 = 0 ∧ 0 < (absorb r1 r2).2) ∨
        (0 < (absorb r1 r2).1 ∧ (absorb r1 r2).2 = 0)) ∧
      (r2 < r1 → 0 < (absorb r1 r2).1 ∧ (absorb r1 r2).2 = 0) ∧
      (r1 ≤ r2 → (absorb r1 r2).1 = 0 ∧ 0 < (absorb r1 r2).2) := by
  have hx : 0 < r1 ^ 3 + r2 ^ 3 := by
    rcases lt_or_le 0 r1 with h | h
    · have hp : 0 < r1 ^ 3 := pow_pos h 3
      have hn : 0 ≤ r2 ^ 3 := pow_nonneg h2 3
      linarith
    · have hz : r1 = 0 := le_antisymm h h1
      have hr2 : 0 < r2 := by rw [hz] at hc; linarith
      have hp : 0 < r2 ^ 3 := pow_pos hr2 3
      have hn : 0 ≤ r1 ^ 3 := pow_nonneg h1 3
      linarith
  have hcube : (absorbRadius r1 r2) ^ 3 = r1 ^ 3 + r2 ^ 3 := by
    unfold absorbRadius
    rw [← Real.rpow_natCast ((r1 ^ 3 + r2 ^ 3) ^ ((1 : ℝ) / 3)) 3,
      ← Real.rpow_mul hx.le]
    norm_num
  have hpos : 0 < absorbRadius r1 r2 := Real.rpow_pos_of_pos hx _
  unfold absorb
  split_ifs with hgt
  · refine ⟨?_, Or.inr ⟨hpos, rfl⟩, fun _ => ⟨hpos, rfl⟩,
      fun hle => absurd hgt (not_lt.mpr hle)⟩
    show absorbRadius r1 r2 ^ 3 + (0 : ℝ) ^ 3 = r1 ^ 3 + r2 ^ 3
    rw [hcube]
    norm_num
  · refine ⟨?_, Or.inl ⟨rfl, hpos⟩, fun hlt => absurd hlt hgt, fun _ => ⟨rfl, hpos⟩⟩
    show (0 : ℝ) ^ 3 + absorbRadius r1 r2 ^ 3 = r1 ^ 3 + r2 ^ 3
    rw [hcube]
    norm_num

/-- Claim C1 witness: the scenario from the spec — two radius-10 particles
merge into one of radius 10·2^(1/3) (cube 2000) and one of radius 0. -/
theorem c1_absorb_volume_witness :
    (0 : ℝ) ≤ 10 ∧ (0 : ℝ) ≤ 10 ∧ (0 : ℝ) < 10 + 10 ∧
      (((absorb 10 10).1 ^ 3 + (absorb 10 10).2 ^ 3 = (10 : ℝ) ^ 3 + 10 ^ 3) ∧
        (((absorb 10 10).1 = 0 ∧ 0 < (absorb 10 10).2) ∨
          (0 < (absorb 10 10).1 ∧ (absorb 10 10).2 = 0)) ∧
        ((10 : ℝ) < 10 → 0 < (absorb 10 10).1 ∧ (absorb 10 10).2 = 0) ∧
        ((10 : ℝ) ≤ 10 → (absorb 10 10).1 = 0 ∧ 0 < (absorb 10 10).2)) :=
  ⟨by norm_num, by norm_num, by norm_num,
   c1_absorb_volume 10 10 (by norm_num) (by norm_num) (by norm_num)⟩

/-! ## C2 — grid candidate enumeration vs. brute force -/

theorem floor_close (a b : ℚ) (h : |a - b| < 120) :
    -1 ≤ ⌊a / 120⌋ - ⌊b / 120⌋ ∧ ⌊a / 120⌋ - ⌊b / 120⌋ ≤ 1 := by
  obtain ⟨h1, h2⟩ := abs_lt.mp h
  have ha : a / 120 ≤ b / 120 + 1 := by linarith
  have hb : b / 120 ≤ a / 120 + 1 := by linarith
  have hfa := Int.floor_le_floor ha
  have hfb := Int.floor_le_floor hb
  rw [Int.floor_add_one] at hfa hfb
  omega

/-- Claim C2 counterexample: two radius-50 particles 250 apart.  Brute
force flags the pair (250² = 62500 < 90000 = (3·(50+50))²), but their grid
cells (0,0) and (2,0) are neither equal nor forward neighbors, so the grid
never passes the pair to `checkCollision`: the candidate sets differ. -/
theorem c2_counterexample :
    bandNear ⟨0, 0, 0, 0, 0, 0, 50⟩ ⟨250, 0, 0, 0, 0, 0, 50⟩ ∧
      ¬ gridPaired ⟨0, 0, 0, 0, 0, 0, 50⟩ ⟨250, 0, 0, 0, 0, 0, 50⟩ := by
  have hc1 : cellOf ⟨0, 0, 0, 0, 0, 0, 50⟩ = (0, 0) := by
    simp [cellOf, GRID_SIZE]
  have hc2 : cellOf ⟨250, 0, 0, 0, 0, 0, 50⟩ = (2, 0) := by
    have hf : (⌊(250 : ℚ) / 120⌋ : ℤ) = 2 := by
      rw [Int.floor_eq_iff]
      constructor <;> norm_num
    simp [cellOf, GRID_SIZE, hf]
  constructor
  · show distSq _ _ < _
    norm_num [distSq]
  · rw [gridPaired, hc1, hc2]
    decide

/-- Claim C2 (amended): the grid-derived candidate pairs are a subset of
the brute-force interaction-band pairs, with equality exactly for pairs
whose band diameter fits a grid cell: whenever 3·(r1 + r2) ≤ GRID_SIZE
(= 120), a pair within the band necessarily occupies equal or
forward-adjacent cells and is enumerated; pairs with larger summed radii
can be in band yet missed (see the counterexample). -/
theorem c2_grid_matches_brute (a b : Bubble) (ha : 0 ≤ a.radius)
    (hb : 0 ≤ b.radius) (hfit : (a.radius + b.radius) * 3 ≤ GRID_SIZE) :
    (gridPaired a b ∧ bandNear a b) ↔ bandNear a b := by
  constructor
  · exact fun h => h.2
  · intro hband
    refine ⟨?_, hband⟩
    have hm : (0 : ℚ) ≤ (a.radius + b.radius) * 3 := by linarith
    have hM : (a.radius + b.radius) * 3 ≤ 120 := by
      rw [GRID_SIZE] at hfit; exact hfit
    have hsq : ((a.radius + b.radius) * 3) * ((a.radius + b.radius) * 3) ≤
        120 * 120 := by nlinarith
    have hd := hband
    rw [bandNear, distSq] at hd
    have hdx : |b.x - a.x| < 120 := by
      rw [abs_lt]
      constructor <;>
        nlinarith [mul_self_nonneg (b.y - a.y), mul_self_nonneg (b.z - a.z)]
    have hdy : |b.y - a.y| < 120 := by
      rw [abs_lt]
      constructor <;>
        nlinarith [mul_self_nonneg (b.x - a.x), mul_self_nonneg (b.z - a.z)]
    obtain ⟨hx1, hx2⟩ := floor_close b.x a.x hdx
    obtain ⟨hy1, hy2⟩ := floor_close b.y a.y hdy
    rw [gridPaired]
    simp only [cellOf, GRID_SIZE, neighborOffsets, List.mem_cons,
      List.not_mem_nil, or_false, Prod.mk.injEq, Prod.mk_sub_mk]
    omega

/-- Claim C2 witness: the amended equivalence evaluated for two radius-10
particles 30 apart (band diameter 60 ≤ 120), which share cell (0,0). -/
theorem c2_grid_matches_brute_witness :
    (0 : ℚ) ≤ (⟨0, 0, 0, 0, 0, 0, 10⟩ : Bubble).radius ∧
      (0 : ℚ) ≤ (⟨30, 0, 0, 0, 0, 0, 10⟩ : Bubble).radius ∧
      ((⟨0, 0, 0, 0, 0, 0, 10⟩ : Bubble).radius +
          (⟨30, 0, 0, 0, 0, 0, 10⟩ : Bubble).radius) * 3 ≤ GRID_SIZE ∧
      ((gridPaired ⟨0, 0, 0, 0, 0, 0, 10⟩ ⟨30, 0, 0, 0, 0, 0, 10⟩ ∧
          bandNear ⟨0, 0, 0, 0, 0, 0, 10⟩ ⟨30, 0, 0, 0, 0, 0, 10⟩) ↔
        bandNear ⟨0, 0, 0, 0, 0, 0, 10⟩ ⟨30, 0, 0, 0, 0, 0, 10⟩) :=
  ⟨by norm_num, by norm_num, by norm_num [GRID_SIZE],
   c2_grid_matches_brute ⟨0, 0, 0, 0, 0, 0, 10⟩ ⟨30, 0, 0, 0, 0, 0, 10⟩
     (by norm_num) (by norm_num) (by norm_num [GRID_SIZE])⟩

/-! ## Quantizer arithmetic lemmas -/

theorem tmod_twelve_lb (n : ℤ) : -12 < n.tmod 12 := by
  rcases n with m | m
  · have h := Int.tmod_nonneg 12 (Int.ofNat_nonneg m)
    show -12 < ((m : ℕ) : ℤ).tmod 12
    omega
  · have h2 : (m + 1) % 12 < 12 := Nat.mod_lt _ (by norm_num)
    have h : (Int.negSucc m).tmod 12 = -(((m + 1) % 12 : ℕ) : ℤ) := rfl
    omega

theorem jsModZ_eq_emod (n : ℤ) : jsModZ n 12 = n % 12 := by
  unfold jsModZ
  have hlb := tmod_twelve_lb n
  have hnn : 0 ≤ n.tmod 12 + 12 := by omega
  rw [Int.tmod_eq_emod hnn (by norm_num)]
  have hd : n.tmod 12 = n - 12 * (n.tdiv 12) := Int.tmod_def n 12
  omega

theorem jsModZ_range (n : ℤ) : 0 ≤ jsModZ n 12 ∧ jsModZ n 12 < 12 := by
  rw [jsModZ_eq_emod]
  omega

theorem jsTrunc_intCast (m : ℤ) : jsTrunc (m : ℚ) = m := by
  unfold jsTrunc
  split_ifs <;> simp

theorem jsModQ_sub_mul (x : ℚ) : ∃ k : ℤ, jsModQ x 12 = x - 12 * k := by
  refine ⟨jsTrunc (x / 12) +
    jsTrunc ((x - 12 * (jsTrunc (x / 12) : ℚ) + 12) / 12) - 1, ?_⟩
  unfold jsModQ jsRem
  push_cast
  ring

theorem jsModQ_twelve_mul (k : ℤ) : jsModQ ((12 * k : ℤ) : ℚ) 12 = 0 := by
  have h1 : jsRem ((12 * k : ℤ) : ℚ) 12 = 0 := by
    unfold jsRem
    have hdiv : ((12 * k : ℤ) : ℚ) / 12 = (k : ℚ) := by push_cast; ring
    rw [hdiv, jsTrunc_intCast]
    push_cast
    ring
  unfold jsModQ
  rw [h1]
  unfold jsRem
  have hdiv : ((0 : ℚ) + 12) / 12 = ((1 : ℤ) : ℚ) := by norm_num
  rw [hdiv, jsTrunc_intCast]
  norm_num

theorem floor_half_intCast_add (m : ℤ) : (⌊(m : ℚ) + 0.5⌋ : ℤ) = m := by
  have h : ((m : ℚ) + 0.5) = 0.5 + (m : ℚ) := by ring
  rw [h, Int.floor_add_int]
  have h0 : (⌊(0.5 : ℚ)⌋ : ℤ) = 0 := by
    apply Int.floor_eq_iff.mpr
    norm_num
  omega

theorem jsRound_intCast (m : ℤ) : jsRound (m : ℚ) = m := by
  unfold jsRound
  exact floor_half_intCast_add m

/-! ## Candidate-set lemmas -/

theorem mem_addUnique (l : List ℚ) (x c : ℚ) (h : c ∈ addUnique l x) :
    c ∈ l ∨ c = x := by
  unfold addUnique at h
  split_ifs at h with hx
  · exact Or.inl h
  · rcases List.mem_append.mp h with h2 | h2
    · exact Or.inl h2
    · exact Or.inr (List.mem_singleton.mp h2)

theorem addUnique_mem_self (l : List ℚ) (x : ℚ) : x ∈ addUnique l x := by
  unfold addUnique
  split_ifs with hx
  · exact hx
  · exact List.mem_append.mpr (Or.inr (List.mem_singleton.mpr rfl))

theorem addUnique_mem_mono (l : List ℚ) (x c : ℚ) (h : c ∈ l) :
    c ∈ addUnique l x := by
  unfold addUnique
  split_ifs with hx
  · exact h
  · exact List.mem_append.mpr (Or.inl h)

theorem mem_candStep (inputMidi : ℚ) (acc : List ℚ) (pc : ℤ) (c : ℚ)
    (h : c ∈ candStep inputMidi acc pc) :
    c ∈ acc ∨ c = candBase inputMidi pc - 12 ∨ c = candBase inputMidi pc ∨
      c = candBase inputMidi pc + 12 := by
  unfold candStep at h
  rcases mem_addUnique _ _ _ h with h2 | h2
  · rcases mem_addUnique _ _ _ h2 with h3 | h3
    · rcases mem_addUnique _ _ _ h3 with h4 | h4
      · exact Or.inl h4
      · exact Or.inr (Or.inl h4)
    · exact Or.inr (Or.inr (Or.inl h3))
  · exact Or.inr (Or.inr (Or.inr h2))

theorem candStep_mem_mono (inputMidi : ℚ) (acc : List ℚ) (pc : ℤ) (c : ℚ)
    (h : c ∈ acc) : c ∈ candStep inputMidi acc pc := by
  unfold candStep
  exact addUnique_mem_mono _ _ _ (addUnique_mem_mono _ _ _ (addUnique_mem_mono _ _ _ h))

theorem candStep_mem_base (inputMidi : ℚ) (acc : List ℚ) (pc : ℤ) :
    candBase inputMidi pc ∈ candStep inputMidi acc pc := by
  unfold candStep
  exact addUnique_mem_mono _ _ _ (addUnique_mem_self _ _)

theorem foldl_candStep_mono (inputMidi : ℚ) (l : List ℤ) :
    ∀ (acc : List ℚ) (c : ℚ), c ∈ acc →
      c ∈ List.foldl (candStep inputMidi) acc l := by
  induction l with
  | nil => exact fun acc c h => h
  | cons pc rest ih =>
    intro acc c h
    exact ih _ _ (candStep_mem_mono inputMidi acc pc c h)

theorem foldl_candStep_spec (inputMidi : ℚ) (Q : ℚ → Prop)
    (l : List ℤ)
    (hnew : ∀ pc ∈ l, Q (candBase inputMidi pc - 12) ∧
      Q (candBase inputMidi pc) ∧ Q (candBase inputMidi pc + 12)) :
    ∀ (acc : List ℚ), (∀ c ∈ acc, Q c) →
      ∀ c ∈ List.foldl (candStep inputMidi) acc l, Q c := by
  induction l with
  | nil => exact fun acc hacc c hc => hacc c hc
  | cons pc rest ih =>
    intro acc hacc c hc
    refine ih (fun q hq => hnew q (List.mem_cons_of_mem pc hq)) _ ?_ c hc
    intro d hd
    rcases mem_candStep inputMidi acc pc d hd with h | h | h | h
    · exact hacc d h
    · exact h ▸ (hnew pc (List.mem_cons_self pc rest)).1
    · exact h ▸ (hnew pc (List.mem_cons_self pc rest)).2.1
    · exact h ▸ (hnew pc (List.mem_cons_self pc rest)).2.2

theorem buildCandidates_spec (inputMidi : ℚ) (allowed : List ℤ) :
    ∀ c ∈ buildCandidates inputMidi allowed,
      ∃ pc ∈ allowed, ∃ k : ℤ, c = (pc : ℚ) + 12 * k := by
  apply foldl_candStep_spec
  · intro pc hpc
    obtain ⟨k0, hk0⟩ := jsModQ_sub_mul (inputMidi - (pc : ℚ))
    have hbase : candBase inputMidi pc = (pc : ℚ) + 12 * k0 := by
      unfold candBase
      rw [hk0]
      ring
    refine ⟨⟨pc, hpc, k0 - 1, ?_⟩, ⟨pc, hpc, k0, hbase⟩, ⟨pc, hpc, k0 + 1, ?_⟩⟩
    · rw [hbase]; push_cast; ring
    · rw [hbase]; push_cast; ring
  · intro c hc
    exact absurd hc (List.not_mem_nil c)

theorem foldl_candStep_base (inputMidi : ℚ) (l : List ℤ) :
    ∀ (acc : List ℚ) (pc : ℤ), pc ∈ l →
      candBase inputMidi pc ∈ List.foldl (candStep inputMidi) acc l := by
  induction l with
  | nil => exact fun acc pc h => absurd h (List.not_mem_nil pc)
  | cons q rest ih =>
    intro acc pc h
    rcases List.mem_cons.mp h with rfl | hmem
    · exact foldl_candStep_mono inputMidi rest _ _ (candStep_mem_base inputMidi acc pc)
    · exact ih _ pc hmem

theorem base_mem_buildCandidates (inputMidi : ℚ) (allowed : List ℤ) (pc : ℤ)
    (h : pc ∈ allowed) :
    candBase inputMidi pc ∈ buildCandidates inputMidi allowed :=
  foldl_candStep_base inputMidi allowed [] pc h

/-! ## Allowed-set and pick lemmas -/

theorem finalIntervals_ne_nil (cfg : QuantizeConfig) : finalIntervals cfg ≠ [] := by
  unfold finalIntervals
  split_ifs with h
  · simp
  · exact h

theorem buildAllowed_ne_nil (cfg : QuantizeConfig) :
    buildAllowedPitchClasses cfg ≠ [] := by
  unfold buildAllowedPitchClasses
  intro h
  exact finalIntervals_ne_nil cfg (List.map_eq_nil_iff.mp h)

theorem mem_buildAllowed_range (cfg : QuantizeConfig) (pc : ℤ)
    (h : pc ∈ buildAllowedPitchClasses cfg) : 0 ≤ pc ∧ pc < 12 := by
  unfold buildAllowedPitchClasses at h
  obtain ⟨i, _, rfl⟩ := List.mem_map.mp h
  exact jsModZ_range _

theorem mem_sortedCands (inputMidi : ℚ) (cands : List ℚ) (avoidLT : Bool)
    (ltPc : ℤ) (c : Cand)
    (h : c ∈ sortedCands inputMidi cands avoidLT ltPc) : c.midi ∈ cands := by
  unfold sortedCands at h
  rw [List.mem_insertionSort] at h
  obtain ⟨m, hm, rfl⟩ := List.mem_map.mp h
  exact hm

theorem sortedCands_ne_nil (inputMidi : ℚ) (cands : List ℚ) (avoidLT : Bool)
    (ltPc : ℤ) (h : cands ≠ []) :
    sortedCands inputMidi cands avoidLT ltPc ≠ [] := by
  unfold sortedCands
  intro h2
  have hp := List.perm_insertionSort candLE
    (cands.map (scoreCand inputMidi avoidLT ltPc))
  rw [h2] at hp
  have hmap := hp.symm.eq_nil
  rw [List.map_eq_nil_iff] at hmap
  exact h hmap

theorem mem_pickCandidate (inputMidi : ℚ) (cands : List ℚ) (mode : Mode)
    (avoidLT : Bool) (ltPc : ℤ) (c : Cand)
    (h : c ∈ pickCandidate inputMidi cands mode avoidLT ltPc) :
    c.midi ∈ cands := by
  unfold pickCandidate at h
  cases mode with
  | nearest => exact mem_sortedCands _ _ _ _ _ h
  | down =>
    dsimp only at h
    split_ifs at h with hb
    · exact mem_sortedCands _ _ _ _ _ h
    · exact mem_sortedCands _ _ _ _ _ (List.mem_filter.mp h).1
  | up =>
    dsimp only at h
    split_ifs at h with hb
    · exact mem_sortedCands _ _ _ _ _ h
    · exact mem_sortedCands _ _ _ _ _ (List.mem_filter.mp h).1

theorem pickCandidate_ne_nil (inputMidi : ℚ) (cands : List ℚ) (mode : Mode)
    (avoidLT : Bool) (ltPc : ℤ) (h : cands ≠ []) :
    pickCandidate inputMidi cands mode avoidLT ltPc ≠ [] := by
  unfold pickCandidate
  cases mode with
  | nearest => exact sortedCands_ne_nil _ _ _ _ h
  | down =>
    dsimp only
    split_ifs with hb
    · exact sortedCands_ne_nil _ _ _ _ h
    · exact hb
  | up =>
    dsimp only
    split_ifs with hb
    · exact sortedCands_ne_nil _ _ _ _ h
    · exact hb

/-! ## C5 — quantizer legality -/

/-- Claim C5: for every input pitch (finite or not — `isFin` is
`Number.isFinite` of the raw input) and every configuration over an
integer MIDI root, the allowed pitch-class set is never empty (the
exclusion filter falls back to the unfiltered scale, and an empty scale
falls back to `[0]`), and the returned pitch's pitch class is a member of
that allowed set. -/
theorem c5_quantize_legal (inputMidi : ℚ) (isFin : Bool) (cfg : QuantizeConfig) :
    buildAllowedPitchClasses cfg ≠ [] ∧
      jsModZ (quantizeMidiToScale inputMidi isFin cfg) 12 ∈
        buildAllowedPitchClasses cfg := by
  refine ⟨buildAllowed_ne_nil cfg, ?_⟩
  have hallow := buildAllowed_ne_nil cfg
  have hcands : buildCandidates (safeInputOf inputMidi isFin cfg)
      (buildAllowedPitchClasses cfg) ≠ [] := by
    obtain ⟨pc0, rest0, hE⟩ : ∃ pc0 rest0,
        buildAllowedPitchClasses cfg = pc0 :: rest0 := by
      cases hA : buildAllowedPitchClasses cfg with
      | nil => exact absurd hA hallow
      | cons a l => exact ⟨a, l, rfl⟩
    intro hnil
    have hmem := base_mem_buildCandidates (safeInputOf inputMidi isFin cfg)
      (buildAllowedPitchClasses cfg) pc0 (by rw [hE]; exact List.mem_cons_self _ _)
    rw [hnil] at hmem
    exact List.not_mem_nil _ hmem
  have hord : quantizeOrdered inputMidi isFin cfg ≠ [] := by
    unfold quantizeOrdered
    exact pickCandidate_ne_nil _ _ _ _ _ hcands
  have hchosen_mem : chosenOf inputMidi isFin cfg ∈
      buildCandidates (safeInputOf inputMidi isFin cfg)
        (buildAllowedPitchClasses cfg) := by
    unfold chosenOf
    cases hE : quantizeOrdered inputMidi isFin cfg with
    | nil => exact absurd hE hord
    | cons c rest =>
      have hcmem : c ∈ quantizeOrdered inputMidi isFin cfg := by
        rw [hE]; exact List.mem_cons_self _ _
      unfold quantizeOrdered at hcmem
      exact mem_pickCandidate _ _ _ _ _ _ hcmem
  have hrep_mem : chosenRepeatOf inputMidi isFin cfg ∈
      buildCandidates (safeInputOf inputMidi isFin cfg)
        (buildAllowedPitchClasses cfg) := by
    unfold chosenRepeatOf
    split_ifs with hni
    · cases hL : cfg.lastMidi with
      | none => exact hchosen_mem
      | some last =>
        dsimp only
        cases hF : (quantizeOrdered inputMidi isFin cfg).find?
            (fun c => decide (c.midi ≠ last)) with
        | none => exact hchosen_mem
        | some alt =>
          have halt : alt ∈ quantizeOrdered inputMidi isFin cfg :=
            List.mem_of_find?_eq_some hF
          unfold quantizeOrdered at halt
          exact mem_pickCandidate _ _ _ _ _ _ halt
    · exact hchosen_mem
  obtain ⟨pc, hpc, k, hek⟩ := buildCandidates_spec
    (safeInputOf inputMidi isFin cfg) (buildAllowedPitchClasses cfg) _ hrep_mem
  unfold quantizeMidiToScale
  rw [hek]
  have hcast : ((pc : ℚ) + 12 * (k : ℚ)) = (((pc + 12 * k : ℤ)) : ℚ) := by
    push_cast
    ring
  rw [hcast, jsRound_intCast]
  obtain ⟨h0, h12⟩ := mem_buildAllowed_range cfg pc hpc
  have hmod : jsModZ (pc + 12 * k) 12 = pc := by
    rw [jsModZ_eq_emod]
    omega
  rw [hmod]
  exact hpc

/-! ## C9 — idempotence on legal pitches -/

theorem one_le_abs_cast (m n : ℤ) (h : m ≠ n) : (1 : ℚ) ≤ |(m : ℚ) - (n : ℚ)| := by
  have h1 : (1 : ℤ) ≤ |m - n| := Int.one_le_abs (sub_ne_zero.mpr h)
  have h3 : ((1 : ℤ) : ℚ) ≤ ((|m - n| : ℤ) : ℚ) := Int.cast_le.mpr h1
  push_cast at h3
  linarith

theorem scoreCand_self_le (x : ℚ) (avoidLT : Bool) (ltPc : ℤ) :
    (scoreCand x avoidLT ltPc x).score ≤ 0.25 := by
  unfold scoreCand
  simp only [sub_self, abs_zero, zero_add]
  split_ifs <;> norm_num

theorem scoreCand_score_ge (x m : ℚ) (avoidLT : Bool) (ltPc : ℤ) :
    |m - x| ≤ (scoreCand x avoidLT ltPc m).score := by
  unfold scoreCand
  simp only
  split_ifs <;> norm_num

theorem insertionSort_head_min (S : List Cand) (c0 : Cand) (h0 : c0 ∈ S)
    (hmin : ∀ c ∈ S, c = c0 ∨ c0.score < c.score) :
    ∃ rest, List.insertionSort candLE S = c0 :: rest := by
  have hperm := List.perm_insertionSort candLE S
  have hsorted := List.sorted_insertionSort candLE S
  cases hE : List.insertionSort candLE S with
  | nil =>
    exfalso
    have hm : c0 ∈ List.insertionSort candLE S := hperm.mem_iff.mpr h0
    rw [hE] at hm
    exact List.not_mem_nil _ hm
  | cons c rest =>
    rcases eq_or_ne c c0 with rfl | hne
    · exact ⟨rest, rfl⟩
    · exfalso
      have hm : c0 ∈ List.insertionSort candLE S := hperm.mem_iff.mpr h0
      rw [hE] at hm
      have hc0rest : c0 ∈ rest := by
        rcases List.mem_cons.mp hm with h | h
        · exact absurd h.symm hne
        · exact h
      have hcS : c ∈ S := by
        refine hperm.mem_iff.mp ?_
        rw [hE]
        exact List.mem_cons_self _ _
      rw [hE] at hsorted
      have hrel : candLE c c0 := (List.sorted_cons.mp hsorted).1 c0 hc0rest
      rcases hmin c hcS with h | hlt
      · exact hne h
      · unfold candLE at hrel
        rcases hrel with h | ⟨h, _⟩
        · linarith
        · linarith

theorem pickCandidate_nearest_head (x : ℚ) (cands : List ℚ) (avoidLT : Bool)
    (ltPc : ℤ) (hx : x ∈ cands)
    (hint : ∀ m ∈ cands, m = x ∨ (1 : ℚ) ≤ |m - x|) :
    ∃ rest, pickCandidate x cands Mode.nearest avoidLT ltPc =
      scoreCand x avoidLT ltPc x :: rest := by
  unfold pickCandidate sortedCands
  apply insertionSort_head_min
  · exact List.mem_map_of_mem _ hx
  · intro c hc
    obtain ⟨m, hm, rfl⟩ := List.mem_map.mp hc
    rcases hint m hm with rfl | hge
    · exact Or.inl rfl
    · right
      have hs1 := scoreCand_self_le x avoidLT ltPc
      have hs2 := scoreCand_score_ge x m avoidLT ltPc
      linarith

/-- Claim C9: quantization is idempotent on legal pitches — an integer
input whose pitch class is already in the allowed set, quantized under
"nearest" mode with repeat-avoidance disabled, returns unchanged.  (This
holds even when leading-tone avoidance penalises the input: the 0.25
penalty is smaller than the distance 1 of any competing candidate.) -/
theorem c9_quantize_idempotent (n : ℤ) (cfg : QuantizeConfig)
    (hpc : jsModZ n 12 ∈ buildAllowedPitchClasses cfg)
    (hmode : cfg.mode = Mode.nearest)
    (hrep : cfg.noImmediateRepeat = false) :
    quantizeMidiToScale (n : ℚ) true cfg = n := by
  have hbase : candBase (n : ℚ) (jsModZ n 12) = (n : ℚ) := by
    unfold candBase
    have h1 : jsModZ n 12 = n % 12 := jsModZ_eq_emod n
    have h2 : (n : ℤ) - jsModZ n 12 = 12 * (n / 12) := by rw [h1]; omega
    have h3 : (n : ℚ) - ((jsModZ n 12 : ℤ) : ℚ) = ((12 * (n / 12) : ℤ) : ℚ) := by
      rw [← h2]
      push_cast
      ring
    rw [h3, jsModQ_twelve_mul]
    ring
  have hcand : (n : ℚ) ∈ buildCandidates (n : ℚ) (buildAllowedPitchClasses cfg) := by
    have hmem := base_mem_buildCandidates (n : ℚ)
      (buildAllowedPitchClasses cfg) (jsModZ n 12) hpc
    rw [hbase] at hmem
    exact hmem
  have hint : ∀ m ∈ buildCandidates (n : ℚ) (buildAllowedPitchClasses cfg),
      m = (n : ℚ) ∨ (1 : ℚ) ≤ |m - (n : ℚ)| := by
    intro m hm
    rcases eq_or_ne m (n : ℚ) with rfl | hne
    · exact Or.inl rfl
    · right
      obtain ⟨pc, hpcm, k, hek⟩ := buildCandidates_spec (n : ℚ) _ m hm
      have hmi : m = ((pc + 12 * k : ℤ) : ℚ) := by
        rw [hek]
        push_cast
        ring
      have hne2 : (pc + 12 * k : ℤ) ≠ n := fun hcon => hne (by rw [hmi, hcon])
      rw [hmi]
      exact one_le_abs_cast _ _ hne2
  obtain ⟨rest, hhead⟩ := pickCandidate_nearest_head (n : ℚ) _
    (cfg.avoidLeadingTone || cfg.scale.avoidLT)
    (jsModZ (jsModZ cfg.rootMidi 12 + 11) 12) hcand hint
  have hsafe : safeInputOf (n : ℚ) true cfg = (n : ℚ) := rfl
  have hord : quantizeOrdered (n : ℚ) true cfg =
      scoreCand (n : ℚ) (cfg.avoidLeadingTone || cfg.scale.avoidLT)
        (jsModZ (jsModZ cfg.rootMidi 12 + 11) 12) (n : ℚ) :: rest := by
    unfold quantizeOrdered
    rw [hsafe, hmode]
    exact hhead
  have hchosen : chosenOf (n : ℚ) true cfg = (n : ℚ) := by
    unfold chosenOf
    rw [hord]
    rfl
  have hrepO : chosenRepeatOf (n : ℚ) true cfg = chosenOf (n : ℚ) true cfg := by
    unfold chosenRepeatOf
    rw [hrep]
    rfl
  unfold quantizeMidiToScale
  rw [hrepO, hchosen, jsRound_intCast]

/-- Claim C9 witness: input 60 with root 60 over minor pentatonic in
"nearest" mode with repeat-avoidance off returns 60. -/
theorem c9_quantize_idempotent_witness :
    jsModZ 60 12 ∈ buildAllowedPitchClasses
      ⟨60, minorPentatonic, Mode.nearest, false, none, false, false⟩ ∧
      quantizeMidiToScale ((60 : ℤ) : ℚ) true
        ⟨60, minorPentatonic, Mode.nearest, false, none, false, false⟩ = 60 :=
  ⟨by decide,
   c9_quantize_idempotent 60
     ⟨60, minorPentatonic, Mode.nearest, false, none, false, false⟩
     (by decide) rfl rfl⟩

end Glassroom
